import Mathlib

/-!
Verification development for the Gist content-acquisition subsystem.

The definitions below are a shallow embedding of the Go sources:
* `backend/internal/service` readability service (`FetchReadableContent`,
  `fetchWithChrome`, the bluemonday sanitizer policy configuration), and
* `backend/internal/scheduler/scheduler.go` (`Start`, `Stop`, `run`, `refresh`).

External collaborators that are not part of this repository's sources
(the Anubis challenge solver, the HTTP transport, Go's `net/url` parser,
the bluemonday sanitizer and the readability extractor libraries, the
entry repository) are embedded as explicit environment parameters, or —
where a claim depends on their behaviour — modelled from the
specification, as marked in doc comments.
-/

namespace Gist

/-- Error values of the readability service, following the Go code:
`ErrNotFound`, `ErrInvalid`, `ErrFeedFetch` are the service's sentinel
errors; the remaining constructors stand for the distinct wrapped
`fmt.Errorf` failures (`request failed`, `HTTP %d`, `parse URL failed`,
`parse content failed`, `render failed`, `anubis solve failed`) and a
repository update failure.  `fuelExhausted` is an artifact of embedding
the unbounded Go recursion of `fetchWithChrome` with explicit fuel; it is
proved unreachable under the solver contract (see the depth-bound
theorems). -/
inductive Err where
  | notFound
  | invalid
  | feedFetch
  | requestFailed
  | httpStatus (code : Nat)
  | parseURLFailed
  | parseContentFailed
  | renderFailed
  | solveFailed
  | updateFailed
  | fuelExhausted
deriving DecidableEq, Repr

/-- Result of Go's `url.Parse` restricted to the two fields the service
reads: `Scheme` and `Host`. -/
structure ParsedURL where
  scheme : String
  host : String
deriving DecidableEq, Repr

/-- An HTTP response as the service observes it through azuretls:
status code, body, and the response cookies (`resp.Cookies`). -/
structure Response where
  statusCode : Nat
  body : String
  cookies : List (String × String)
deriving DecidableEq, Repr

/-- Modelled from the spec: the interface of the Anubis challenge solver
(`backend/internal/service/anubis`, whose source is not under `src/`;
only its caller is).  Per the spec, `GetCachedCookie(host)` returns the
current valid cookie for a host or empty, `IsChallenge(body)` is a
synchronous signature match on a response body, and
`SolveFromBody(ctx, body, url, seedCookies)` computes a proof-of-work
solution and returns the newly issued access cookie or fails. -/
structure AnubisSolver where
  getCachedCookie : String → String
  isChallenge : String → Bool
  solveFromBody : String → String → List (String × String) → Except Unit String

/-- The ordered Chrome 135 header set built by `fetchWithChrome`
(lines 137–154 of the readability service), with the configured
user-agent appended last. -/
def baseHeaders (ua : String) : List (String × String) :=
  [ ("accept", "text/html,application/xhtml+xml,application/xml;q=0.9,image/avif,image/webp,image/apng,*/*;q=0.8,application/signed-exchange;v=b3;q=0.7"),
    ("accept-language", "zh-CN,zh;q=0.9"),
    ("cache-control", "max-age=0"),
    ("priority", "u=0, i"),
    ("sec-ch-ua", "\"Google Chrome\";v=\"135\", \"Chromium\";v=\"135\", \"Not-A.Brand\";v=\"8\""),
    ("sec-ch-ua-arch", "\"x86\""),
    ("sec-ch-ua-mobile", "?0"),
    ("sec-ch-ua-model", "\"\""),
    ("sec-ch-ua-platform", "\"Windows\""),
    ("sec-ch-ua-platform-version", "\"19.0.0\""),
    ("sec-fetch-dest", "document"),
    ("sec-fetch-mode", "navigate"),
    ("sec-fetch-site", "none"),
    ("sec-fetch-user", "?1"),
    ("upgrade-insecure-requests", "1"),
    ("user-agent", ua) ]

/-- Cookie attachment of `fetchWithChrome` (lines 156–163): an explicit
non-empty cookie is appended; otherwise, when a solver is present, the
cached cookie for the host is appended when non-empty; otherwise no
cookie header is added. -/
def buildHeaders (anubis : Option AnubisSolver) (ua cookie host : String) :
    List (String × String) :=
  let headers := baseHeaders ua
  if cookie != "" then headers ++ [("cookie", cookie)]
  else
    match anubis with
    | some a =>
      let cached := a.getCachedCookie host
      if cached != "" then headers ++ [("cookie", cached)]
      else headers
    | none => headers

/-- Look up the cookie header attached to an outbound request. -/
def lookupCookie : List (String × String) → Option String
  | [] => none
  | p :: ps => if p.1 == "cookie" then some p.2 else lookupCookie ps

/-- Environment of the readability service: the optional Anubis solver,
the configured user agent (`config.ChromeUserAgent`), Go's `url.Parse`
(standard library, kept abstract like the other external collaborators:
`none` stands for a non-nil parse error, `some` for the `Scheme` and
`Host` fields the service reads), the outbound transport (`session.Do`,
returning a response or a transport error), the sanitizer, the
readability parser and renderer (external libraries, kept abstract), and
whether the repository update succeeds.  Theorems quantify over this
environment, so they hold for the actual behaviour of those libraries. -/
structure Service where
  anubis : Option AnubisSolver
  chromeUserAgent : String
  parseURL : String → Option ParsedURL
  net : String → List (String × String) → Except Unit Response
  sanitize : String → String
  parseArticle : String → ParsedURL → Except Unit String
  renderHTML : String → Except Unit String
  updateOk : Bool

deriving instance DecidableEq for Except

/-- Observable outcome of `fetchWithChrome`: the returned body or error,
the outbound requests actually issued (URL with the full ordered header
list), and the number of solve attempts performed. -/
structure FetchOut where
  result : Except Err String
  reqs : List (String × List (String × String))
  solves : Nat
deriving DecidableEq, Repr

/-- Body of `fetchWithChrome` (readability service, lines 125–197), with
the single recursive retry abstracted as the continuation `retry`
(yielding `none` when the embedding's fuel is exhausted).  Control flow
follows the source exactly: parse the URL with `url.Parse`
(`ErrFeedFetch` on failure),
reject non-http(s) schemes (`ErrInvalid`), issue the GET with the Chrome
headers and the cookie chosen by `buildHeaders`, fail on transport errors
and non-200 statuses, and — only when a solver is configured, the cookie
argument is empty and the body is a challenge — solve once and retry with
the newly solved cookie. -/
def fetchStep (s : Service) (retry : String → Option FetchOut)
    (targetURL cookie : String) : FetchOut :=
  match s.parseURL targetURL with
  | none => ⟨.error .feedFetch, [], 0⟩
  | some u =>
    if u.scheme ≠ "http" ∧ u.scheme ≠ "https" then ⟨.error .invalid, [], 0⟩
    else
      let headers := buildHeaders s.anubis s.chromeUserAgent cookie u.host
      match s.net targetURL headers with
      | .error _ => ⟨.error .requestFailed, [(targetURL, headers)], 0⟩
      | .ok resp =>
        if resp.statusCode ≠ 200 then
          ⟨.error (.httpStatus resp.statusCode), [(targetURL, headers)], 0⟩
        else
          match s.anubis with
          | none => ⟨.ok resp.body, [(targetURL, headers)], 0⟩
          | some a =>
            if (cookie == "") && a.isChallenge resp.body then
              match a.solveFromBody resp.body targetURL resp.cookies with
              | .error _ => ⟨.error .solveFailed, [(targetURL, headers)], 1⟩
              | .ok newCookie =>
                match retry newCookie with
                | none => ⟨.error .fuelExhausted, [(targetURL, headers)], 1⟩
                | some r => ⟨r.result, (targetURL, headers) :: r.reqs, 1 + r.solves⟩
            else ⟨.ok resp.body, [(targetURL, headers)], 0⟩

/-- Shallow embedding of `fetchWithChrome`.  The Go function recurses
once with the freshly solved cookie; the embedding carries explicit fuel
for that recursion (the depth-bound theorems show any positive fuel gives
the Go function's behaviour) and records the issued requests and solve
attempts. -/
def fetchWithChrome (s : Service) : Nat → String → String → FetchOut
  | 0, targetURL, cookie => fetchStep s (fun _ => none) targetURL cookie
  | fuel + 1, targetURL, cookie =>
    fetchStep s (fun newCookie => some (fetchWithChrome s fuel targetURL newCookie))
      targetURL cookie

/-- A persisted entry, restricted to the fields the pipeline reads and
writes: the source URL and the cached readable content (both nullable in
the Go model). -/
structure Entry where
  url : Option String
  readableContent : Option String
deriving DecidableEq, Repr

/-- The entry repository's visible state: entries keyed by id. -/
abbrev Store := List (Int × Entry)

/-- Repository `GetByID`: the first entry stored under the id, or absent
(`sql.ErrNoRows`, surfaced as `ErrNotFound` by the pipeline). -/
def getByID : Store → Int → Option Entry
  | [], _ => none
  | p :: ps, id => if p.1 == id then some p.2 else getByID ps id

/-- Repository `UpdateReadableContent`: upsert of the readable-content
field of the entry stored under the id. -/
def updateReadableContent : Store → Int → String → Store
  | [], _, _ => []
  | p :: ps, id, content =>
    (if p.1 == id then (p.1, { p.2 with readableContent := some content }) else p)
      :: updateReadableContent ps id content

/-- Observable outcome of one `FetchReadableContent` call: the returned
content or error, the repository state after the call, the outbound
requests issued, the solve attempts, the contents passed to
`UpdateReadableContent`, and the output of the render stage when it was
reached. -/
structure PipeOut where
  result : Except Err String
  store : Store
  reqs : List (String × List (String × String))
  solves : Nat
  updates : List String
  rendered : Option String
deriving DecidableEq, Repr

/-- Steps 3–9 of `FetchReadableContent` (lines 70–114 of the readability
service), entered when no non-empty cached content exists: validate the
URL, fetch with no cookie override, sanitize, re-parse the URL, run the
readability parser, render, reject empty rendered output (`ErrInvalid`),
and only then persist via `UpdateReadableContent`. -/
def fetchAndPersist (s : Service) (fuel : Nat) (store : Store) (entryID : Int)
    (entry : Entry) : PipeOut :=
  match entry.url with
  | none => ⟨.error .invalid, store, [], 0, [], none⟩
  | some u =>
    if u == "" then ⟨.error .invalid, store, [], 0, [], none⟩
    else
      let f := fetchWithChrome s fuel u ""
      match f.result with
      | .error e => ⟨.error e, store, f.reqs, f.solves, [], none⟩
      | .ok body =>
        let sanitized := s.sanitize body
        match s.parseURL u with
        | none => ⟨.error .parseURLFailed, store, f.reqs, f.solves, [], none⟩
        | some parsedURL =>
          match s.parseArticle sanitized parsedURL with
          | .error _ => ⟨.error .parseContentFailed, store, f.reqs, f.solves, [], none⟩
          | .ok article =>
            match s.renderHTML article with
            | .error _ => ⟨.error .renderFailed, store, f.reqs, f.solves, [], none⟩
            | .ok content =>
              if content == "" then
                ⟨.error .invalid, store, f.reqs, f.solves, [], some content⟩
              else if s.updateOk then
                ⟨.ok content, updateReadableContent store entryID content,
                  f.reqs, f.solves, [content], some content⟩
              else
                ⟨.error .updateFailed, store, f.reqs, f.solves, [content], some content⟩

/-- Shallow embedding of `FetchReadableContent` (lines 56–115): load the
entry (`ErrNotFound` when absent), return any non-empty cached
readable content unchanged with no network activity, and otherwise run
the fetch–sanitize–extract–render–persist pipeline. -/
def FetchReadableContent (s : Service) (fuel : Nat) (store : Store)
    (entryID : Int) : PipeOut :=
  match getByID store entryID with
  | none => ⟨.error .notFound, store, [], 0, [], none⟩
  | some entry =>
    match entry.readableContent with
    | some rc =>
      if rc == "" then fetchAndPersist s fuel store entryID entry
      else ⟨.ok rc, store, [], 0, [], none⟩
    | none => fetchAndPersist s fuel store entryID entry

/-- Phase of the scheduler's background goroutine (`run`,
`scheduler.go` lines 39–56): not yet started, executing the immediate
initial `refresh`, blocked in the `select`, executing a ticked `refresh`,
or returned (after which `wg.Done` has run). -/
inductive LoopPhase where
  | beforeInit
  | running0
  | selecting
  | runningTick
  | exited
deriving DecidableEq, Repr

/-- Global state of `Scheduler` together with its background goroutine:
the goroutine's phase, whether `close(stopCh)` has happened, whether
`Stop()` has returned from `wg.Wait()`, whether an unconsumed tick sits
in the ticker channel (capacity one; extra ticks are dropped), the number
of ticks the ticker has emitted, the number of refresh cycles started,
the current time, and the instant the ticker was created (`nil` before
`time.NewTicker` runs). -/
structure SchedState where
  phase : LoopPhase
  stopClosed : Bool
  stopReturned : Bool
  pendingTick : Bool
  ticksElapsed : Nat
  cyclesStarted : Nat
  now : Nat
  tickerStart : Option Nat
deriving DecidableEq, Repr

/-- State right after `Start()` has spawned the goroutine. -/
def SchedState.init : SchedState :=
  ⟨.beforeInit, false, false, false, 0, 0, 0, none⟩

/-- Interleaving semantics of `scheduler.go`, indexed by the configured
interval.  `beginInit`/`finishInit` bracket the immediate initial
`refresh`; `finishInit` also creates the ticker.  `tickElapse` lets the
ticker emit its `k`-th tick once `interval` time units have passed `k`
times since its creation; the tick sits in the channel until the loop's
`select` consumes it (`selectTick`).  `selectStop` is the `select` taking
the closed stop channel; `callStop` is `Stop()` closing the channel, and
`stopReturn` is `Stop()` passing `wg.Wait()`, which requires the
goroutine to have returned.  `timePass` advances time. -/
inductive SchedStep (interval : Nat) : SchedState → SchedState → Prop
  | timePass (s : SchedState) :
      SchedStep interval s { s with now := s.now + 1 }
  | beginInit (s : SchedState) (h : s.phase = .beforeInit) :
      SchedStep interval s
        { s with phase := .running0, cyclesStarted := s.cyclesStarted + 1 }
  | finishInit (s : SchedState) (h : s.phase = .running0) :
      SchedStep interval s { s with phase := .selecting, tickerStart := some s.now }
  | tickElapse (s : SchedState) (t0 : Nat) (h : s.tickerStart = some t0)
      (hp : s.phase = .selecting ∨ s.phase = .runningTick)
      (ht : t0 + interval * (s.ticksElapsed + 1) ≤ s.now) :
      SchedStep interval s
        { s with pendingTick := true, ticksElapsed := s.ticksElapsed + 1 }
  | selectTick (s : SchedState) (h : s.phase = .selecting) (hp : s.pendingTick = true) :
      SchedStep interval s
        { s with phase := .runningTick, pendingTick := false,
                 cyclesStarted := s.cyclesStarted + 1 }
  | finishTick (s : SchedState) (h : s.phase = .runningTick) :
      SchedStep interval s { s with phase := .selecting }
  | selectStop (s : SchedState) (h : s.phase = .selecting) (hc : s.stopClosed = true) :
      SchedStep interval s { s with phase := .exited }
  | callStop (s : SchedState) (h : s.stopClosed = false) :
      SchedStep interval s { s with stopClosed := true }
  | stopReturn (s : SchedState) (hc : s.stopClosed = true) (hx : s.phase = .exited) :
      SchedStep interval s { s with stopReturned := true }

/-- States the scheduler can be in after `Start()`. -/
inductive SchedReachable (interval : Nat) : SchedState → Prop
  | init : SchedReachable interval SchedState.init
  | step {s t : SchedState} (hs : SchedReachable interval s)
      (hstep : SchedStep interval s t) : SchedReachable interval t

/-- Multi-step successors: everything that can happen from a state on. -/
def SchedReachFrom (interval : Nat) : SchedState → SchedState → Prop :=
  Relation.ReflTransGen (SchedStep interval)

/-- The deadline `refresh` puts on each cycle's context
(`context.WithTimeout(context.Background(), 5*time.Minute)`), in seconds. -/
def refreshTimeoutSeconds : Nat := 5 * 60

/-- Observable outcome of one `refresh` cycle: the timeout of the context
it handed to `RefreshAll`, and the log lines it emitted.  The Go function
returns nothing. -/
structure CycleOut where
  ctxTimeoutSeconds : Nat
  logs : List String
deriving DecidableEq, Repr

/-- Shallow embedding of `Scheduler.refresh` (`scheduler.go`
lines 58–67): build a context with a five-minute timeout, call
`RefreshAll`, log any error, and finish — the error is never returned. -/
def refresh (refreshAll : Nat → Except String Unit) : CycleOut :=
  let timeout := refreshTimeoutSeconds
  let errLogs :=
    match refreshAll timeout with
    | .error e => ["scheduled refresh error: " ++ e]
    | .ok _ => []
  ⟨timeout, ["starting scheduled feed refresh"] ++ errLogs
      ++ ["scheduled feed refresh completed"]⟩

mutual
/-- An HTML element or text node, for the sanitizer model. -/
inductive HtmlNode where
  | elem (tag : String) (attrs : List (String × String)) (children : HtmlForest)
  | text (s : String)
/-- A sequence of sibling HTML nodes. -/
inductive HtmlForest where
  | nil
  | cons (n : HtmlNode) (rest : HtmlForest)
end

/-- Concatenation of sibling sequences. -/
def HtmlForest.append : HtmlForest → HtmlForest → HtmlForest
  | .nil, ys => ys
  | .cons x xs, ys => .cons x (xs.append ys)

/-- The nine structural tags `NewReadabilityService` adds with
`AllowElements` (readability service, line 40). -/
def structuralTags : List String :=
  ["article", "section", "header", "footer", "nav", "aside", "main",
   "figure", "figcaption"]

/-- Modelled from the spec: the element allow-list of bluemonday's
`UGCPolicy` baseline (the bluemonday library is not under `src/`) —
common user-generated-content tags, which per the spec excludes
script/style/embed-class elements. -/
def ugcBaseTags : List String :=
  ["a", "abbr", "b", "blockquote", "br", "caption", "cite", "code", "col",
   "colgroup", "dd", "del", "details", "div", "dl", "dt", "em", "h1", "h2",
   "h3", "h4", "h5", "h6", "hr", "i", "img", "ins", "li", "mark", "ol",
   "p", "pre", "q", "rp", "rt", "ruby", "s", "samp", "small", "span",
   "strike", "strong", "sub", "summary", "sup", "table", "tbody", "td",
   "tfoot", "th", "thead", "time", "tr", "u", "ul"]

/-- Modelled from the spec: elements whose entire subtree is stripped —
"script/style/embed-class elements". -/
def strippedContentTags : List String :=
  ["script", "style", "iframe", "object", "embed", "noscript"]

/-- Elements the configured policy keeps: the UGC baseline plus the nine
structural tags added by `AllowElements`. -/
def allowedTags : List String := ugcBaseTags ++ structuralTags

/-- The global attribute allow-list added by
`AllowAttrs("id", "class", "lang", "dir").Globally()` (line 41). -/
def allowedAttrs : List String := ["id", "class", "lang", "dir"]

/-- Keep only attributes on the allow-list; everything else (event
handlers, inline handlers and other dangerous attributes) is dropped. -/
def sanitizeAttrs (attrs : List (String × String)) : List (String × String) :=
  attrs.filter (fun p => allowedAttrs.contains p.1)

mutual
/-- Modelled from the spec: sanitization by the policy built in
`NewReadabilityService` (bluemonday is not under `src/`).  A
script/style/embed-class element is removed together with its content;
an allow-listed element is kept with filtered attributes and sanitized
children; any other element is dropped while its sanitized children are
kept. -/
def sanitizeNode : HtmlNode → HtmlForest
  | .text str => .cons (.text str) .nil
  | .elem tag attrs children =>
    if strippedContentTags.contains tag then .nil
    else if allowedTags.contains tag then
      .cons (.elem tag (sanitizeAttrs attrs) (sanitizeForest children)) .nil
    else sanitizeForest children
/-- Sanitize a sequence of sibling nodes. -/
def sanitizeForest : HtmlForest → HtmlForest
  | .nil => .nil
  | .cons n rest => (sanitizeNode n).append (sanitizeForest rest)
end

mutual
/-- Whether an element with the given tag occurs in a node. -/
def nodeHasTag (tag : String) : HtmlNode → Bool
  | .text _ => false
  | .elem t _ children => t == tag || forestHasTag tag children
/-- Whether an element with the given tag occurs in a forest. -/
def forestHasTag (tag : String) : HtmlForest → Bool
  | .nil => false
  | .cons n rest => nodeHasTag tag n || forestHasTag tag rest
end

mutual
/-- Whether the given text occurs as a text node in a node. -/
def nodeHasText (str : String) : HtmlNode → Bool
  | .text s => s == str
  | .elem _ _ children => forestHasText str children
/-- Whether the given text occurs as a text node in a forest. -/
def forestHasText (str : String) : HtmlForest → Bool
  | .nil => false
  | .cons n rest => nodeHasText str n || forestHasText str rest
end

/-- The spec's sanitizer test input,
`<article><script>evil()</script><p>Hello</p></article>`. -/
def sanitizerSampleInput : HtmlForest :=
  .cons
    (.elem "article" []
      (.cons (.elem "script" [] (.cons (.text "evil()") .nil))
        (.cons (.elem "p" [] (.cons (.text "Hello") .nil)) .nil)))
    .nil

/-- Expected sanitizer output for the sample input:
`<article><p>Hello</p></article>`. -/
def sanitizerSampleOutput : HtmlForest :=
  .cons
    (.elem "article" []
      (.cons (.elem "p" [] (.cons (.text "Hello") .nil)) .nil))
    .nil

/-- Whether a fetch result is a success carrying a body the solver would
classify as a challenge page. -/
def resultIsChallenge (a : AnubisSolver) : Except Err String → Bool
  | .ok b => a.isChallenge b
  | .error _ => false

/-- Whether a pipeline result is a success. -/
def exceptIsOk : Except Err String → Bool
  | .ok _ => true
  | .error _ => false

/-- A concrete solver used to evaluate the embedding on closed inputs:
every body equal to `"CHALLENGE"` is a challenge, solving always succeeds
with a fixed non-empty access cookie, and the cookie cache is empty. -/
def demoSolver : AnubisSolver where
  getCachedCookie := fun _ => ""
  isChallenge := fun b => b == "CHALLENGE"
  solveFromBody := fun _ _ _ => .ok "anubis-auth=token"

/-- Go's `url.Parse` restricted to the concrete URLs this development
evaluates, each value being the `Scheme`/`Host` pair Go returns for that
input; every other listed input is one Go's `url.Parse` rejects — in
particular `"a\nb"`, which contains an ASCII control character
(`net/url: invalid control character in URL`). -/
def demoParse : String → Option ParsedURL := fun str =>
  if str == "http://example.com/a" then some ⟨"http", "example.com"⟩
  else if str == "http://h/x" then some ⟨"http", "h"⟩
  else if str == "http://h/y" then some ⟨"http", "h"⟩
  else if str == "ftp://example.com/x" then some ⟨"ftp", "example.com"⟩
  else none

/-- A concrete service whose transport answers every request with
HTTP 200 and the challenge body, and whose library stages are passthrough
functions. -/
def demoService : Service where
  anubis := some demoSolver
  chromeUserAgent := "Mozilla/5.0 Chrome/135"
  parseURL := demoParse
  net := fun _ _ => .ok ⟨200, "CHALLENGE", [("sid", "1")]⟩
  sanitize := fun b => b
  parseArticle := fun b _ => .ok b
  renderHTML := fun a => .ok a
  updateOk := true

/-- Updating one id leaves lookups of any other id unchanged. -/
theorem getByID_update_ne (store : Store) (j : Int) (c : String) (id' : Int)
    (h : id' ≠ j) :
    getByID (updateReadableContent store j c) id' = getByID store id' := by
  induction store with
  | nil => rfl
  | cons p ps ih =>
    by_cases hpj : (p.1 == j) = true
    · have hj : p.1 = j := by simpa using hpj
      have hpk : (p.1 == id') = false :=
        beq_eq_false_iff_ne.mpr (by rw [hj]; exact fun hh => h hh.symm)
      simp [updateReadableContent, getByID, hpj, hpk, ih]
    · have hpj' : (p.1 == j) = false := by simpa using hpj
      simp only [updateReadableContent, getByID, hpj', Bool.false_eq_true, if_false]
      by_cases hpk : (p.1 == id') = true
      · simp [hpk]
      · have hpk' : (p.1 == id') = false := by simpa using hpk
        simp [hpk', ih]

/-- Every branch of the pipeline either leaves the store unchanged or
updates exactly the fetched id, so an entry whose readable content is
already non-empty is never overwritten: steps 2 and 9 of
`FetchReadableContent`. -/
theorem fetchAndPersist_preserves_nonempty (s : Service) (fuel : Nat)
    (store : Store) (j : Int) (entry : Entry) (id' : Int) (e' : Entry) (rc' : String)
    (hj : getByID store j = some entry)
    (hentry : entry.readableContent = none ∨ entry.readableContent = some "")
    (hget : getByID store id' = some e')
    (hrc : e'.readableContent = some rc') (hne : rc' ≠ "") :
    getByID (fetchAndPersist s fuel store j entry).store id' = some e' := by
  by_cases hij : id' = j
  · subst hij
    rw [hget] at hj
    injection hj with he
    subst he
    rw [hrc] at hentry
    rcases hentry with hh | hh
    · exact absurd hh (by simp)
    · exact absurd (by injection hh) hne
  · unfold fetchAndPersist
    cases hu : entry.url with
    | none => exact hget
    | some u =>
      by_cases hu0 : (u == "") = true
      · simp only [if_pos hu0]; exact hget
      · have hu0' : (u == "") = false := by simpa using hu0
        simp only [hu0', Bool.false_eq_true, if_false]
        cases hres : (fetchWithChrome s fuel u "").result with
        | error e => exact hget
        | ok body =>
          dsimp only
          cases hp : s.parseURL u with
          | none => exact hget
          | some pu =>
            dsimp only
            cases hpa : s.parseArticle (s.sanitize body) pu with
            | error e => exact hget
            | ok article =>
              dsimp only
              cases hr : s.renderHTML article with
              | error e => exact hget
              | ok content =>
                by_cases hc0 : (content == "") = true
                · simp only [if_pos hc0]; exact hget
                · have hc0' : (content == "") = false := by simpa using hc0
                  simp only [hc0', Bool.false_eq_true, if_false]
                  by_cases hup : s.updateOk = true
                  · simp only [if_pos hup]
                    rw [getByID_update_ne store j content id' hij]
                    exact hget
                  · simp only [if_neg hup]; exact hget

/-- The pipeline never overwrites an entry whose stored readable content
is non-empty, whatever entry it is asked to fetch. -/
theorem fetch_preserves_nonempty (s : Service) (fuel : Nat) (store : Store)
    (j id' : Int) (e' : Entry) (rc' : String)
    (hget : getByID store id' = some e')
    (hrc : e'.readableContent = some rc') (hne : rc' ≠ "") :
    getByID (FetchReadableContent s fuel store j).store id' = some e' := by
  unfold FetchReadableContent
  cases hj : getByID store j with
  | none => exact hget
  | some entry =>
    dsimp only
    cases hc : entry.readableContent with
    | none =>
      exact fetchAndPersist_preserves_nonempty s fuel store j entry id' e' rc'
        hj (Or.inl hc) hget hrc hne
    | some rc =>
      by_cases hrc0 : (rc == "") = true
      · have hrceq : rc = "" := by simpa using hrc0
        subst hrceq
        simp only [hrc0, if_pos]
        exact fetchAndPersist_preserves_nonempty s fuel store j entry id' e' rc'
          hj (Or.inr hc) hget hrc hne
      · have hrc0' : (rc == "") = false := by simpa using hrc0
        simp only [hrc0', Bool.false_eq_true, if_false]
        exact hget

/-- Inductive invariant of the scheduler transition system: `Stop()` can
only have returned with the goroutine exited and the stop channel closed;
a pending tick implies the ticker has ticked; any tick implies at least
one full interval has passed; before the initial refresh no cycle has
started; no second cycle can start before the first tick; once the loop
has begun, at least one cycle has started; and the goroutine exits only
after `close(stopCh)`. -/
def SchedInv (interval : Nat) (s : SchedState) : Prop :=
  (s.stopReturned = true → s.phase = .exited ∧ s.stopClosed = true) ∧
  (s.pendingTick = true → 1 ≤ s.ticksElapsed) ∧
  (1 ≤ s.ticksElapsed → interval ≤ s.now) ∧
  (s.phase = .beforeInit → s.cyclesStarted = 0) ∧
  (s.ticksElapsed = 0 → s.cyclesStarted ≤ 1) ∧
  (s.phase ≠ .beforeInit → 1 ≤ s.cyclesStarted) ∧
  (s.phase = .exited → s.stopClosed = true)

/-- The invariant holds initially. -/
theorem schedInv_init (interval : Nat) : SchedInv interval SchedState.init := by
  refine ⟨?_, ?_, ?_, ?_, ?_, ?_, ?_⟩ <;> simp [SchedState.init]

/-- The invariant is preserved by every step. -/
theorem schedInv_step {interval : Nat} {s t : SchedState}
    (hstep : SchedStep interval s t) (hinv : SchedInv interval s) :
    SchedInv interval t := by
  obtain ⟨hA, hB, hH, hD, hF, hK, hL⟩ := hinv
  cases hstep with
  | timePass =>
    exact ⟨hA, hB, fun h => (hH h).trans (Nat.le_succ _), hD, hF, hK, hL⟩
  | beginInit h =>
    refine ⟨?_, hB, hH, ?_, ?_, ?_, ?_⟩
    · intro hr; have h2 := (hA hr).1; rw [h] at h2; simp at h2
    · intro hph; simp at hph
    · intro ht; have := hD h; dsimp only; omega
    · intro hph; dsimp only; omega
    · intro hph; simp at hph
  | finishInit h =>
    refine ⟨?_, hB, hH, ?_, hF, ?_, ?_⟩
    · intro hr; have h2 := (hA hr).1; rw [h] at h2; simp at h2
    · intro hph; simp at hph
    · intro _; exact hK (by rw [h]; simp)
    · intro hph; simp at hph
  | tickElapse t0 h hp ht =>
    refine ⟨?_, ?_, ?_, ?_, ?_, ?_, hL⟩
    · intro hr
      have h2 := (hA hr).1
      rcases hp with hp | hp <;> rw [hp] at h2 <;> simp at h2
    · intro _; dsimp only; omega
    · intro _
      have h1 : interval * 1 ≤ interval * (s.ticksElapsed + 1) :=
        Nat.mul_le_mul_left interval (by omega)
      dsimp only; omega
    · intro hph
      dsimp only at hph
      rcases hp with hp | hp <;> rw [hph] at hp <;> simp at hp
    · intro h0; dsimp only at h0; omega
    · intro _
      rcases hp with hp | hp <;> exact hK (by rw [hp]; simp)
  | selectTick h hp =>
    refine ⟨?_, ?_, hH, ?_, ?_, ?_, ?_⟩
    · intro hr; have h2 := (hA hr).1; rw [h] at h2; simp at h2
    · intro hpt; simp at hpt
    · intro hph; simp at hph
    · intro h0; have := hB hp; dsimp only at h0; omega
    · intro _; dsimp only; omega
    · intro hph; simp at hph
  | finishTick h =>
    refine ⟨?_, hB, hH, ?_, hF, ?_, ?_⟩
    · intro hr; have h2 := (hA hr).1; rw [h] at h2; simp at h2
    · intro hph; simp at hph
    · intro _; exact hK (by rw [h]; simp)
    · intro hph; simp at hph
  | selectStop h hc =>
    refine ⟨?_, hB, hH, ?_, hF, ?_, ?_⟩
    · intro hr; have h2 := (hA hr).1; rw [h] at h2; simp at h2
    · intro hph; simp at hph
    · intro _; exact hK (by rw [h]; simp)
    · intro _; exact hc
  | callStop h =>
    refine ⟨?_, hB, hH, hD, hF, hK, ?_⟩
    · intro hr; exact ⟨(hA hr).1, rfl⟩
    · intro _; rfl
  | stopReturn hc hx =>
    exact ⟨fun _ => ⟨hx, hc⟩, hB, hH, hD, hF, hK, hL⟩

/-- Every reachable scheduler state satisfies the invariant. -/
theorem schedInv_reachable {interval : Nat} {s : SchedState}
    (hs : SchedReachable interval s) : SchedInv interval s := by
  induction hs with
  | init => exact schedInv_init interval
  | step hs hstep ih => exact schedInv_step hstep ih

/-- Once the goroutine has exited, no step changes its phase or starts a
cycle. -/
theorem sched_exited_absorbing {interval : Nat} {s t : SchedState}
    (hstep : SchedStep interval s t) (hx : s.phase = .exited) :
    t.phase = .exited ∧ t.cyclesStarted = s.cyclesStarted := by
  cases hstep with
  | timePass => exact ⟨hx, rfl⟩
  | beginInit h => rw [hx] at h; simp at h
  | finishInit h => rw [hx] at h; simp at h
  | tickElapse t0 h hp ht =>
    rcases hp with hp | hp <;> rw [hx] at hp <;> simp at hp
  | selectTick h hp => rw [hx] at h; simp at h
  | finishTick h => rw [hx] at h; simp at h
  | selectStop h hc => rw [hx] at h; simp at h
  | callStop h => exact ⟨hx, rfl⟩
  | stopReturn hc hx2 => exact ⟨hx, rfl⟩

/-- Once the goroutine has exited, every future state still has it exited
with the same cycle count. -/
theorem sched_exited_frozen {interval : Nat} {s t : SchedState}
    (hft : SchedReachFrom interval s t) (hx : s.phase = .exited) :
    t.phase = .exited ∧ t.cyclesStarted = s.cyclesStarted := by
  induction hft with
  | refl => exact ⟨hx, rfl⟩
  | tail hbt hstep ih =>
    obtain ⟨hbx, hbc⟩ := ih
    obtain ⟨htx, htc⟩ := sched_exited_absorbing hstep hbx
    exact ⟨htx, htc.trans hbc⟩

/-- A concrete entry store: entry 1 has cached readable content, entry 2
has a URL and non-empty cached content, entry 3 has a URL and no cached
content. -/
def demoStore : Store :=
  [ (1, ⟨none, some "cached"⟩),
    (2, ⟨some "http://h/x", some "keep"⟩),
    (3, ⟨some "http://h/y", none⟩) ]

/-- With a non-empty cookie argument, `fetchStep` never consults the
retry continuation: the challenge branch requires an empty cookie.  Hence
the outcome is retry-independent, performs no solve and at most one
request. -/
theorem fetchStep_cookie_ne (s : Service) (k k' : String → Option FetchOut)
    (url cookie : String) (hc : cookie ≠ "") :
    fetchStep s k url cookie = fetchStep s k' url cookie ∧
    (fetchStep s k url cookie).solves = 0 ∧
    (fetchStep s k url cookie).reqs.length ≤ 1 := by
  have hbeq : (cookie == "") = false := beq_eq_false_iff_ne.mpr hc
  unfold fetchStep
  cases hu : s.parseURL url with
  | none => exact ⟨by simp, by simp, by simp⟩
  | some u =>
    by_cases hs1 : u.scheme ≠ "http" ∧ u.scheme ≠ "https"
    · simp only [if_pos hs1]
      exact ⟨by simp, by simp, by simp⟩
    · simp only [if_neg hs1]
      cases hn : s.net url (buildHeaders s.anubis s.chromeUserAgent cookie u.host) with
      | error e => exact ⟨by simp, by simp, by simp⟩
      | ok resp =>
        by_cases hst : resp.statusCode ≠ 200
        · simp only [if_pos hst]
          exact ⟨by simp, by simp, by simp⟩
        · simp only [if_neg hst]
          cases ha : s.anubis with
          | none => exact ⟨by simp, by simp, by simp⟩
          | some a =>
            simp only [hbeq, Bool.false_and, Bool.false_eq_true, if_false]
            exact ⟨by simp, by simp, by simp⟩

/-- With a non-empty cookie, `fetchWithChrome` is independent of its fuel:
no recursion can occur. -/
theorem fetchWithChrome_cookie_ne (s : Service) (f : Nat) (url cookie : String)
    (hc : cookie ≠ "") :
    fetchWithChrome s f url cookie = fetchStep s (fun _ => none) url cookie := by
  cases f with
  | zero => rfl
  | succ f =>
    exact (fetchStep_cookie_ne s
      (fun nc => some (fetchWithChrome s f url nc)) (fun _ => none) url cookie hc).1

/-- The fixed Chrome header set carries no cookie header of its own. -/
theorem lookupCookie_baseHeaders (ua : String) :
    lookupCookie (baseHeaders ua) = none := rfl

/-- Appending a cookie pair to a cookie-free header list makes it the
cookie the request carries. -/
theorem lookupCookie_append_cookie (hs : List (String × String)) (v : String)
    (h : lookupCookie hs = none) :
    lookupCookie (hs ++ [("cookie", v)]) = some v := by
  induction hs with
  | nil => rfl
  | cons p ps ih =>
    cases hb : (p.1 == "cookie") with
    | true => simp [lookupCookie, hb] at h
    | false =>
      simp only [lookupCookie, hb, Bool.false_eq_true, if_false] at h
      simp only [List.cons_append, lookupCookie, hb, Bool.false_eq_true, if_false]
      exact ih h

/-- Whenever the URL parses with an http(s) scheme, the first outbound
request of `fetchStep` targets that URL and carries exactly the Chrome
headers with the cookie chosen by `buildHeaders`. -/
theorem fetchStep_first_req (s : Service) (k : String → Option FetchOut)
    (url cookie : String) (u : ParsedURL)
    (hp : s.parseURL url = some u) (hsc : u.scheme = "http" ∨ u.scheme = "https") :
    (fetchStep s k url cookie).reqs.head? =
      some (url, buildHeaders s.anubis s.chromeUserAgent cookie u.host) := by
  have hcond : ¬(u.scheme ≠ "http" ∧ u.scheme ≠ "https") := by
    rcases hsc with h | h <;> simp [h]
  simp only [fetchStep, hp, if_neg hcond]
  cases hn : s.net url (buildHeaders s.anubis s.chromeUserAgent cookie u.host) with
  | error e => simp
  | ok resp =>
    by_cases hst : resp.statusCode ≠ 200
    · simp [if_pos hst]
    · simp only [if_neg hst]
      cases ha : s.anubis with
      | none => simp
      | some a =>
        by_cases hch : ((cookie == "") && a.isChallenge resp.body) = true
        · simp only [if_pos hch]
          cases hs2 : a.solveFromBody resp.body url resp.cookies with
          | error e => simp
          | ok nc =>
            cases hk : k nc with
            | none => simp [hk]
            | some r => simp [hk]
        · simp only [if_neg hch]
          simp

/-- Scheme validation of `fetchStep`, for every behaviour of the
`url.Parse` collaborator: whenever it does not return an http(s) scheme,
no request is issued and the call fails with `ErrInvalid` (when it
parses) or `ErrFeedFetch` (when it errors). -/
theorem fetchStep_rejects_non_http (s : Service) (k : String → Option FetchOut)
    (urlStr cookie : String)
    (h : ∀ u, s.parseURL urlStr = some u → u.scheme ≠ "http" ∧ u.scheme ≠ "https") :
    (fetchStep s k urlStr cookie).reqs = [] ∧
    (fetchStep s k urlStr cookie).solves = 0 ∧
    (fetchStep s k urlStr cookie).result =
      (match s.parseURL urlStr with
        | none => Except.error Err.feedFetch
        | some _ => Except.error Err.invalid) := by
  unfold fetchStep
  cases hu : s.parseURL urlStr with
  | none => exact ⟨rfl, rfl, rfl⟩
  | some u =>
    dsimp only
    rw [if_pos (h u hu)]
    exact ⟨rfl, rfl, rfl⟩

/-- C3 (amended): classification is by the outcome of Go's `url.Parse`,
over which the theorem quantifies (the parser is external library code,
embedded as the `parseURL` field of the environment).  A URL that
`url.Parse` accepts with a scheme other than http or https — `file://`,
`ftp://`, and ordinary scheme-less URLs included — is rejected with
`ErrInvalid` before any network request; a URL on which `url.Parse`
errors (for example one containing a control character, an invalid host
character or port, or a scheme-less URL with a colon in its first path
segment) is likewise rejected before any network request, but with the
fetch error `ErrFeedFetch` rather than `ErrInvalid`.  When `url.Parse`
errors the hypothesis is vacuous, so the theorem covers both halves. -/
theorem non_http_scheme_rejected_before_network (s : Service) (fuel : Nat)
    (urlStr cookie : String)
    (h : ∀ u, s.parseURL urlStr = some u → u.scheme ≠ "http" ∧ u.scheme ≠ "https") :
    (fetchWithChrome s fuel urlStr cookie).reqs = [] ∧
    (fetchWithChrome s fuel urlStr cookie).solves = 0 ∧
    (fetchWithChrome s fuel urlStr cookie).result =
      (match s.parseURL urlStr with
        | none => Except.error Err.feedFetch
        | some _ => Except.error Err.invalid) := by
  cases fuel with
  | zero => exact fetchStep_rejects_non_http s _ urlStr cookie h
  | succ f => exact fetchStep_rejects_non_http s _ urlStr cookie h

/-- C3 (witness): `ftp://example.com/x` is rejected with `ErrInvalid`,
with no request issued. -/
theorem non_http_scheme_rejected_before_network_witness :
    (fetchWithChrome demoService 1 "ftp://example.com/x" "").reqs = [] ∧
    (fetchWithChrome demoService 1 "ftp://example.com/x" "").solves = 0 ∧
    (fetchWithChrome demoService 1 "ftp://example.com/x" "").result =
      (match demoService.parseURL "ftp://example.com/x" with
        | none => Except.error Err.feedFetch
        | some _ => Except.error Err.invalid) :=
  non_http_scheme_rejected_before_network demoService 1 "ftp://example.com/x" ""
    (fun u hu => by
      have heq : demoService.parseURL "ftp://example.com/x" =
          some ⟨"ftp", "example.com"⟩ := by decide
      rw [heq] at hu
      injection hu with h2
      subst h2
      exact ⟨by decide, by decide⟩)

/-- C3 (counterexample): the scheme-less URL `"a\nb"` — which Go's
`url.Parse` rejects because of its control character, as `demoParse`
records — makes the fetch fail before any network request with
`ErrFeedFetch`, not with the `ErrInvalid` error the claim requires for
every non-http(s) URL. -/
theorem unparseable_url_fails_feedfetch_not_invalid :
    demoService.parseURL "a\nb" = none ∧
    fetchWithChrome demoService 1 "a\nb" "" = ⟨.error .feedFetch, [], 0⟩ ∧
    Err.feedFetch ≠ Err.invalid :=
  ⟨by decide, by decide, by decide⟩

/-- C8: the request issued by a fetch carries exactly the Chrome headers
plus the cookie chosen by strict precedence — a non-empty override cookie
wins; otherwise the cached cookie for the URL's host when non-empty;
otherwise no cookie header at all — and with a non-empty override the
header list is the same whatever solver cache is configured (the cache is
never consulted). -/
theorem cookie_precedence_override_cache_none (s : Service) (b : AnubisSolver)
    (fuel : Nat) (urlStr cookie : String) (u : ParsedURL)
    (hp : s.parseURL urlStr = some u) (hsc : u.scheme = "http" ∨ u.scheme = "https") :
    (fetchWithChrome s fuel urlStr cookie).reqs.head? =
      some (urlStr, buildHeaders s.anubis s.chromeUserAgent cookie u.host) ∧
    lookupCookie (buildHeaders s.anubis s.chromeUserAgent cookie u.host) =
      (if cookie = "" then
        (match s.anubis with
          | some a =>
            if a.getCachedCookie u.host = "" then none
            else some (a.getCachedCookie u.host)
          | none => none)
       else some cookie) ∧
    (cookie = "" ∨
      buildHeaders (some b) s.chromeUserAgent cookie u.host =
        buildHeaders s.anubis s.chromeUserAgent cookie u.host) := by
  refine ⟨?_, ?_, ?_⟩
  · cases fuel with
    | zero => exact fetchStep_first_req s _ urlStr cookie u hp hsc
    | succ f => exact fetchStep_first_req s _ urlStr cookie u hp hsc
  · by_cases hc : cookie = ""
    · subst hc
      rw [if_pos rfl]
      unfold buildHeaders
      rw [show (("" : String) != "") = false from rfl]
      cases ha : s.anubis with
      | none => dsimp only; exact lookupCookie_baseHeaders _
      | some a =>
        dsimp only
        by_cases hq : a.getCachedCookie u.host = ""
        · rw [if_pos hq, show (a.getCachedCookie u.host != "") = false from
            by rw [hq]; rfl]
          exact lookupCookie_baseHeaders _
        · rw [if_neg hq, show (a.getCachedCookie u.host != "") = true from
            by simpa using hq]
          exact lookupCookie_append_cookie _ _ (lookupCookie_baseHeaders _)
    · rw [if_neg hc]
      unfold buildHeaders
      rw [show (cookie != "") = true from by simpa using hc]
      exact lookupCookie_append_cookie _ _ (lookupCookie_baseHeaders _)
  · by_cases hc : cookie = ""
    · exact Or.inl hc
    · refine Or.inr ?_
      unfold buildHeaders
      rw [show (cookie != "") = true from by simpa using hc]
      rfl

/-- C8 (witness): with override cookie `"session=1"` on
`http://example.com/a`, the one request carries that cookie, and the
cache is irrelevant. -/
theorem cookie_precedence_override_cache_none_witness :
    (fetchWithChrome demoService 1 "http://example.com/a" "session=1").reqs.head? =
      some ("http://example.com/a",
        buildHeaders demoService.anubis demoService.chromeUserAgent "session=1"
          "example.com") ∧
    lookupCookie (buildHeaders demoService.anubis demoService.chromeUserAgent
        "session=1" "example.com") =
      (if ("session=1" : String) = "" then
        (match demoService.anubis with
          | some a =>
            if a.getCachedCookie "example.com" = "" then none
            else some (a.getCachedCookie "example.com")
          | none => none)
       else some "session=1") ∧
    (("session=1" : String) = "" ∨
      buildHeaders (some demoSolver) demoService.chromeUserAgent "session=1"
          "example.com" =
        buildHeaders demoService.anubis demoService.chromeUserAgent "session=1"
          "example.com") :=
  cookie_precedence_override_cache_none demoService demoSolver 1
    "http://example.com/a" "session=1" ⟨"http", "example.com"⟩ (by decide)
    (Or.inl rfl)

/-- The outcome of `fetchStep` depends on the retry continuation only at
cookies produced by a successful solve. -/
theorem fetchStep_retry_congr (s : Service) (url cookie : String)
    (k g : String → Option FetchOut)
    (h : ∀ a, s.anubis = some a → ∀ b cks nc,
        a.solveFromBody b url cks = .ok nc → k nc = g nc) :
    fetchStep s k url cookie = fetchStep s g url cookie := by
  unfold fetchStep
  cases hu : s.parseURL url with
  | none => rfl
  | some u =>
    dsimp only
    by_cases hs1 : u.scheme ≠ "http" ∧ u.scheme ≠ "https"
    · rw [if_pos hs1, if_pos hs1]
    · rw [if_neg hs1, if_neg hs1]
      cases hn : s.net url (buildHeaders s.anubis s.chromeUserAgent cookie u.host) with
      | error e => rfl
      | ok resp =>
        dsimp only
        by_cases hst : resp.statusCode ≠ 200
        · rw [if_pos hst, if_pos hst]
        · rw [if_neg hst, if_neg hst]
          cases ha : s.anubis with
          | none => rfl
          | some a =>
            dsimp only
            cases hch : ((cookie == "") && a.isChallenge resp.body) with
            | false => rfl
            | true =>
              cases hsv : a.solveFromBody resp.body url resp.cookies with
              | error e => rfl
              | ok nc =>
                dsimp only
                rw [h a ha resp.body resp.cookies nc hsv]

/-- With an empty cookie and a solver whose successful solves yield
non-empty cookies, `fetchStep` performs at most one solve and at most two
requests whenever its retry continuation is a plain fetch. -/
theorem fetchStep_empty_cookie_bounds (s : Service) (url : String)
    (k : String → Option FetchOut)
    (hk : ∀ nc, nc ≠ "" → k nc = some (fetchStep s (fun _ => none) url nc))
    (hsolve : ∀ a, s.anubis = some a → ∀ b cks c,
        a.solveFromBody b url cks = .ok c → c ≠ "") :
    (fetchStep s k url "").solves ≤ 1 ∧
    (fetchStep s k url "").reqs.length ≤ 2 := by
  unfold fetchStep
  cases hu : s.parseURL url with
  | none => exact ⟨by simp, by simp⟩
  | some u =>
    dsimp only
    by_cases hs1 : u.scheme ≠ "http" ∧ u.scheme ≠ "https"
    · rw [if_pos hs1]
      exact ⟨by simp, by simp⟩
    · rw [if_neg hs1]
      cases hn : s.net url (buildHeaders s.anubis s.chromeUserAgent "" u.host) with
      | error e => exact ⟨by simp, by simp⟩
      | ok resp =>
        dsimp only
        by_cases hst : resp.statusCode ≠ 200
        · rw [if_pos hst]
          exact ⟨by simp, by simp⟩
        · rw [if_neg hst]
          cases ha : s.anubis with
          | none => exact ⟨by simp, by simp⟩
          | some a =>
            dsimp only
            cases hch : a.isChallenge resp.body with
            | false => exact ⟨by simp, by simp⟩
            | true =>
              cases hsv : a.solveFromBody resp.body url resp.cookies with
              | error e => exact ⟨by simp, by simp⟩
              | ok nc =>
                dsimp only
                have hne : nc ≠ "" := hsolve a ha _ _ _ hsv
                rw [hk nc hne]
                have hb := fetchStep_cookie_ne s (fun _ => none) (fun _ => none)
                  url nc hne
                have hlen := hb.2.2
                refine ⟨?_, ?_⟩
                · simp [hb.2.1]
                · simp only [show ((("" : String) == "") && true) = true from rfl,
                    if_true, List.length_cons]
                  omega

/-- C10: the fetch terminates with recursion depth at most two — with any
positive fuel it equals the fuel-one unfolding; a call chain performs at
most two HTTP requests and at most one solve; and the challenge branch is
entered only when the cookie argument is empty (a non-empty cookie means
zero solves).  The hypothesis is the solver contract from the spec: a
successful solve returns a (non-empty) access cookie. -/
theorem fetch_depth_bounded_single_solve (s : Service) (fuel : Nat)
    (urlStr cookie : String)
    (hsolve : ∀ a, s.anubis = some a → ∀ b cks c,
        a.solveFromBody b urlStr cks = .ok c → c ≠ "") :
    fetchWithChrome s (fuel + 1) urlStr cookie = fetchWithChrome s 1 urlStr cookie ∧
    (fetchWithChrome s (fuel + 1) urlStr cookie).reqs.length ≤ 2 ∧
    (fetchWithChrome s (fuel + 1) urlStr cookie).solves ≤ 1 ∧
    (cookie = "" ∨ (fetchWithChrome s (fuel + 1) urlStr cookie).solves = 0) := by
  by_cases hc : cookie = ""
  · subst hc
    have hk : ∀ nc, nc ≠ "" →
        (fun nc => some (fetchWithChrome s fuel urlStr nc)) nc =
          some (fetchStep s (fun _ => none) urlStr nc) := by
      intro nc hne
      simp only [fetchWithChrome_cookie_ne s fuel urlStr nc hne]
    have heq : fetchWithChrome s (fuel + 1) urlStr "" =
        fetchWithChrome s 1 urlStr "" :=
      fetchStep_retry_congr s urlStr ""
        (fun nc => some (fetchWithChrome s fuel urlStr nc))
        (fun nc => some (fetchWithChrome s 0 urlStr nc))
        (fun a ha b cks nc hsv => by
          have hne : nc ≠ "" := hsolve a ha b cks nc hsv
          simp only [fetchWithChrome_cookie_ne s fuel urlStr nc hne,
            fetchWithChrome_cookie_ne s 0 urlStr nc hne])
    have hb := fetchStep_empty_cookie_bounds s urlStr
      (fun nc => some (fetchWithChrome s fuel urlStr nc)) hk hsolve
    exact ⟨heq, hb.2, hb.1, Or.inl rfl⟩
  · have h1 := fetchWithChrome_cookie_ne s (fuel + 1) urlStr cookie hc
    have h2 := fetchWithChrome_cookie_ne s 1 urlStr cookie hc
    have hb := fetchStep_cookie_ne s (fun _ => none) (fun _ => none)
      urlStr cookie hc
    refine ⟨h1.trans h2.symm, ?_, ?_, Or.inr ?_⟩
    · rw [h1]; exact hb.2.2.trans (by omega)
    · rw [h1, hb.2.1]; omega
    · rw [h1, hb.2.1]

/-- C10 (witness): against the always-challenge service, fuel 6 equals
fuel 1, with two requests and one solve. -/
theorem fetch_depth_bounded_single_solve_witness :
    fetchWithChrome demoService (5 + 1) "http://example.com/a" "" =
      fetchWithChrome demoService 1 "http://example.com/a" "" ∧
    (fetchWithChrome demoService (5 + 1) "http://example.com/a" "").reqs.length ≤ 2 ∧
    (fetchWithChrome demoService (5 + 1) "http://example.com/a" "").solves ≤ 1 ∧
    (("" : String) = "" ∨
      (fetchWithChrome demoService (5 + 1) "http://example.com/a" "").solves = 0) :=
  fetch_depth_bounded_single_solve demoService 5 "http://example.com/a" ""
    (fun a ha b cks c hsv => by
      injection ha with ha2
      subst ha2
      injection hsv with hsv2
      subst hsv2
      decide)

/-- Evaluation of `fetchStep` under a non-empty cookie and a 200
response: the body is returned as-is; the challenge branch is skipped. -/
theorem fetchStep_cookie_ne_eval (s : Service) (k : String → Option FetchOut)
    (url cookie : String) (u : ParsedURL)
    (hp : s.parseURL url = some u) (hsc : u.scheme = "http" ∨ u.scheme = "https")
    (hcne : cookie ≠ "") (resp : Response)
    (hn : s.net url (buildHeaders s.anubis s.chromeUserAgent cookie u.host) =
      .ok resp)
    (h200 : resp.statusCode = 200) :
    fetchStep s k url cookie =
      ⟨.ok resp.body,
        [(url, buildHeaders s.anubis s.chromeUserAgent cookie u.host)], 0⟩ := by
  have hcond : ¬(u.scheme ≠ "http" ∧ u.scheme ≠ "https") := by
    rcases hsc with h | h <;> simp [h]
  have hbeq : (cookie == "") = false := beq_eq_false_iff_ne.mpr hcne
  unfold fetchStep
  rw [hp]
  dsimp only
  rw [if_neg hcond, hn]
  dsimp only
  rw [if_neg (show ¬resp.statusCode ≠ 200 from by omega)]
  cases ha : s.anubis with
  | none => rfl
  | some a =>
    dsimp only
    rw [show ((cookie == "") && a.isChallenge resp.body) = false from
      by rw [hbeq]; rfl]
    rfl

/-- Evaluation of `fetchStep` under an empty cookie and a 200 challenge
response: one solve is attempted, and on success the retry continuation
decides the outcome. -/
theorem fetchStep_challenge_eval (s : Service) (a : AnubisSolver)
    (ha : s.anubis = some a) (k : String → Option FetchOut)
    (url : String) (u : ParsedURL)
    (hp : s.parseURL url = some u) (hsc : u.scheme = "http" ∨ u.scheme = "https")
    (resp : Response)
    (hn : s.net url (buildHeaders s.anubis s.chromeUserAgent "" u.host) =
      .ok resp)
    (h200 : resp.statusCode = 200) (hch : a.isChallenge resp.body = true) :
    fetchStep s k url "" =
      (match a.solveFromBody resp.body url resp.cookies with
        | .error _ => ⟨.error .solveFailed,
            [(url, buildHeaders s.anubis s.chromeUserAgent "" u.host)], 1⟩
        | .ok newCookie =>
          match k newCookie with
          | none => ⟨.error .fuelExhausted,
              [(url, buildHeaders s.anubis s.chromeUserAgent "" u.host)], 1⟩
          | some r => ⟨r.result,
              (url, buildHeaders s.anubis s.chromeUserAgent "" u.host) :: r.reqs,
              1 + r.solves⟩) := by
  have hcond : ¬(u.scheme ≠ "http" ∧ u.scheme ≠ "https") := by
    rcases hsc with h | h <;> simp [h]
  unfold fetchStep
  rw [hp]
  dsimp only
  rw [if_neg hcond, hn]
  dsimp only
  rw [if_neg (show ¬resp.statusCode ≠ 200 from by omega), ha]
  dsimp only
  rw [show ((("" : String) == "") && a.isChallenge resp.body) = true from
    by rw [hch]; exact rfl]
  rfl

/-- C1 (amended): against a URL whose every fetch yields an HTTP 200
challenge page, the pipeline's fetch solves exactly once and never
attempts a second solve; but after the single retry the still-challenge
body is returned as a successful fetch result (two requests in total) —
it is not turned into a hard challenge-unsolvable failure.  The only
failing outcome is when the solve attempt itself fails. -/
theorem challenge_single_solve_then_body_returned (s : Service)
    (a : AnubisSolver) (ha : s.anubis = some a) (fuel : Nat)
    (urlStr : String) (u : ParsedURL)
    (hp : s.parseURL urlStr = some u) (hsc : u.scheme = "http" ∨ u.scheme = "https")
    (hsolve : ∀ b cks c, a.solveFromBody b urlStr cks = .ok c → c ≠ "")
    (hnet : ∀ hdrs, ∃ r, s.net urlStr hdrs = Except.ok r ∧
        r.statusCode = 200 ∧ a.isChallenge r.body = true) :
    (fetchWithChrome s (fuel + 1) urlStr "").solves = 1 ∧
    ((fetchWithChrome s (fuel + 1) urlStr "").result = .error .solveFailed ∨
      (resultIsChallenge a (fetchWithChrome s (fuel + 1) urlStr "").result = true ∧
        (fetchWithChrome s (fuel + 1) urlStr "").reqs.length = 2)) := by
  obtain ⟨r, hr, h200, hch⟩ :=
    hnet (buildHeaders s.anubis s.chromeUserAgent "" u.host)
  have hev : fetchWithChrome s (fuel + 1) urlStr "" =
      fetchStep s (fun nc => some (fetchWithChrome s fuel urlStr nc))
        urlStr "" := rfl
  rw [hev, fetchStep_challenge_eval s a ha _ urlStr u hp hsc r hr h200 hch]
  cases hsv : a.solveFromBody r.body urlStr r.cookies with
  | error e => exact ⟨rfl, Or.inl rfl⟩
  | ok nc =>
    have hne : nc ≠ "" := hsolve _ _ _ hsv
    dsimp only
    rw [fetchWithChrome_cookie_ne s fuel urlStr nc hne]
    obtain ⟨r2, hr2, h2002, hch2⟩ :=
      hnet (buildHeaders s.anubis s.chromeUserAgent nc u.host)
    rw [fetchStep_cookie_ne_eval s (fun _ => none) urlStr nc u hp hsc hne
      r2 hr2 h2002]
    exact ⟨rfl, Or.inr ⟨by simp [resultIsChallenge, hch2], rfl⟩⟩

/-- C1 (witness): the always-challenge service with a succeeding solver:
one solve, and the challenge body comes back as a successful result after
two requests. -/
theorem challenge_single_solve_then_body_returned_witness :
    (fetchWithChrome demoService (0 + 1) "http://example.com/a" "").solves = 1 ∧
    ((fetchWithChrome demoService (0 + 1) "http://example.com/a" "").result =
        .error .solveFailed ∨
      (resultIsChallenge demoSolver
          (fetchWithChrome demoService (0 + 1) "http://example.com/a" "").result =
        true ∧
        (fetchWithChrome demoService (0 + 1) "http://example.com/a" "").reqs.length =
          2)) :=
  challenge_single_solve_then_body_returned demoService demoSolver rfl 0
    "http://example.com/a" ⟨"http", "example.com"⟩ (by decide) (Or.inl rfl)
    (fun b cks c hsv => by
      injection hsv with hsv2
      subst hsv2
      decide)
    (fun hdrs => ⟨⟨200, "CHALLENGE", [("sid", "1")]⟩, rfl, rfl, rfl⟩)

/-- C1 (counterexample): with every fetch answering an HTTP 200 challenge
page and the solver succeeding, the fetch returns the challenge body as a
success (`.ok "CHALLENGE"`, a body the solver classifies as a challenge)
after exactly one solve — it does not fail with a challenge-unsolvable
error as the claim states. -/
theorem challenge_body_returned_as_success :
    (fetchWithChrome demoService 1 "http://example.com/a" "").result =
      .ok "CHALLENGE" ∧
    demoSolver.isChallenge "CHALLENGE" = true ∧
    (fetchWithChrome demoService 1 "http://example.com/a" "").solves = 1 :=
  ⟨by decide, by decide, by decide⟩

/-- C2: an entry with non-empty stored readable content is returned
unchanged with zero requests, zero solves and zero updates; calling again
on the resulting store gives the identical outcome; and no call — on any
entry — ever overwrites an entry whose stored readable content is
non-empty. -/
theorem cached_content_short_circuit_idempotent (s : Service) (fuel : Nat)
    (store : Store) (id j id' : Int) (entry e' : Entry) (rc rc' : String)
    (hget : getByID store id = some entry)
    (hrc : entry.readableContent = some rc) (hne : rc ≠ "")
    (hget' : getByID store id' = some e')
    (hrc' : e'.readableContent = some rc') (hne' : rc' ≠ "") :
    FetchReadableContent s fuel store id = ⟨.ok rc, store, [], 0, [], none⟩ ∧
    FetchReadableContent s fuel (FetchReadableContent s fuel store id).store id =
      FetchReadableContent s fuel store id ∧
    getByID (FetchReadableContent s fuel store j).store id' = some e' := by
  have hb : (rc == "") = false := beq_eq_false_iff_ne.mpr hne
  have h1 : FetchReadableContent s fuel store id =
      ⟨.ok rc, store, [], 0, [], none⟩ := by
    unfold FetchReadableContent
    rw [hget]
    dsimp only
    rw [hrc]
    dsimp only
    rw [hb]
    rfl
  refine ⟨h1, ?_, fetch_preserves_nonempty s fuel store j id' e' rc'
    hget' hrc' hne'⟩
  rw [h1]
  exact h1

/-- C2 (witness): entry 1's cached content is returned verbatim with the
store untouched; a fetch of entry 3 (which does persist new content)
leaves entry 2's non-empty content in place. -/
theorem cached_content_short_circuit_idempotent_witness :
    FetchReadableContent demoService 1 demoStore 1 =
      ⟨.ok "cached", demoStore, [], 0, [], none⟩ ∧
    FetchReadableContent demoService 1
        (FetchReadableContent demoService 1 demoStore 1).store 1 =
      FetchReadableContent demoService 1 demoStore 1 ∧
    getByID (FetchReadableContent demoService 1 demoStore 3).store 2 =
      some ⟨some "http://h/x", some "keep"⟩ :=
  cached_content_short_circuit_idempotent demoService 1 demoStore 1 3 2
    ⟨none, some "cached"⟩ ⟨some "http://h/x", some "keep"⟩ "cached" "keep"
    (by decide) (by decide) (by decide) (by decide) (by decide) (by decide)

/-- The persistence discipline of steps 3–9: no empty string is ever
passed to the repository update; an empty render yields `ErrInvalid` with
nothing persisted; an error result leaves the store unchanged; the store
changes only to the successful upsert of the one rendered non-empty
content, which is also the returned value. -/
theorem fetchAndPersist_spec (s : Service) (fuel : Nat) (store : Store)
    (id : Int) (entry : Entry) :
    "" ∉ (fetchAndPersist s fuel store id entry).updates ∧
    ((fetchAndPersist s fuel store id entry).rendered ≠ some "" ∨
      ((fetchAndPersist s fuel store id entry).result = .error .invalid ∧
        (fetchAndPersist s fuel store id entry).store = store ∧
        (fetchAndPersist s fuel store id entry).updates = [])) ∧
    (exceptIsOk (fetchAndPersist s fuel store id entry).result = true ∨
      (fetchAndPersist s fuel store id entry).store = store) ∧
    ((fetchAndPersist s fuel store id entry).store = store ∨
      ((fetchAndPersist s fuel store id entry).updates =
          [(fetchAndPersist s fuel store id entry).updates.headD ""] ∧
        (fetchAndPersist s fuel store id entry).result =
          .ok ((fetchAndPersist s fuel store id entry).updates.headD "") ∧
        (fetchAndPersist s fuel store id entry).store =
          updateReadableContent store id
            ((fetchAndPersist s fuel store id entry).updates.headD ""))) ∧
    ((fetchAndPersist s fuel store id entry).updates = [] ∨
      ((fetchAndPersist s fuel store id entry).rendered =
          some ((fetchAndPersist s fuel store id entry).updates.headD "") ∧
        (fetchAndPersist s fuel store id entry).updates.headD "" ≠ "")) := by
  unfold fetchAndPersist
  cases hu : entry.url with
  | none => exact ⟨by simp, by simp, by simp [exceptIsOk], by simp, by simp⟩
  | some u =>
    dsimp only
    by_cases hu0 : (u == "") = true
    · rw [if_pos hu0]
      exact ⟨by simp, by simp, by simp [exceptIsOk], by simp, by simp⟩
    · rw [if_neg hu0]
      cases hres : (fetchWithChrome s fuel u "").result with
      | error e => exact ⟨by simp, by simp, by simp [exceptIsOk], by simp, by simp⟩
      | ok body =>
        dsimp only
        cases hp : s.parseURL u with
        | none => exact ⟨by simp, by simp, by simp [exceptIsOk], by simp, by simp⟩
        | some pu =>
          dsimp only
          cases hpa : s.parseArticle (s.sanitize body) pu with
          | error e =>
            exact ⟨by simp, by simp, by simp [exceptIsOk], by simp, by simp⟩
          | ok article =>
            dsimp only
            cases hr : s.renderHTML article with
            | error e =>
              exact ⟨by simp, by simp, by simp [exceptIsOk], by simp, by simp⟩
            | ok content =>
              dsimp only
              by_cases hc0 : (content == "") = true
              · rw [if_pos hc0]
                have hceq : content = "" := by simpa using hc0
                subst hceq
                exact ⟨by simp, by simp, by simp [exceptIsOk], by simp, by simp⟩
              · rw [if_neg hc0]
                have hcne : content ≠ "" := by simpa using hc0
                have hcne' : "" ≠ content := Ne.symm hcne
                by_cases hup : s.updateOk = true
                · rw [if_pos hup]
                  exact ⟨by simp [hcne'], by simp [hcne],
                    by simp [exceptIsOk], by simp, by simp [hcne]⟩
                · rw [if_neg hup]
                  exact ⟨by simp [hcne'], by simp [hcne],
                    by simp [exceptIsOk], by simp, by simp [hcne]⟩

/-- C4: `UpdateReadableContent` is reached only with the non-empty output
of a successful sanitize–extract–render chain: the pipeline never passes
an empty string to the repository; an empty render fails with
`ErrInvalid` and persists nothing; every error outcome leaves the stored
readable content exactly as it was; and the store changes only to the
upsert of the returned rendered content. -/
theorem persist_only_after_full_success (s : Service) (fuel : Nat)
    (store : Store) (id : Int) :
    "" ∉ (FetchReadableContent s fuel store id).updates ∧
    ((FetchReadableContent s fuel store id).rendered ≠ some "" ∨
      ((FetchReadableContent s fuel store id).result = .error .invalid ∧
        (FetchReadableContent s fuel store id).store = store ∧
        (FetchReadableContent s fuel store id).updates = [])) ∧
    (exceptIsOk (FetchReadableContent s fuel store id).result = true ∨
      (FetchReadableContent s fuel store id).store = store) ∧
    ((FetchReadableContent s fuel store id).store = store ∨
      ((FetchReadableContent s fuel store id).updates =
          [(FetchReadableContent s fuel store id).updates.headD ""] ∧
        (FetchReadableContent s fuel store id).result =
          .ok ((FetchReadableContent s fuel store id).updates.headD "") ∧
        (FetchReadableContent s fuel store id).store =
          updateReadableContent store id
            ((FetchReadableContent s fuel store id).updates.headD ""))) ∧
    ((FetchReadableContent s fuel store id).updates = [] ∨
      ((FetchReadableContent s fuel store id).rendered =
          some ((FetchReadableContent s fuel store id).updates.headD "") ∧
        (FetchReadableContent s fuel store id).updates.headD "" ≠ "")) := by
  unfold FetchReadableContent
  cases hj : getByID store id with
  | none => exact ⟨by simp, by simp, by simp [exceptIsOk], by simp, by simp⟩
  | some entry =>
    dsimp only
    cases hc : entry.readableContent with
    | none => exact fetchAndPersist_spec s fuel store id entry
    | some rc =>
      dsimp only
      by_cases hrc0 : (rc == "") = true
      · rw [if_pos hrc0]
        exact fetchAndPersist_spec s fuel store id entry
      · rw [if_neg hrc0]
        exact ⟨by simp, by simp, by simp [exceptIsOk], by simp, by simp⟩

/-- C5: when `Stop()` has returned, the background goroutine has exited —
no refresh cycle is still running — and in every subsequent state the
goroutine is still exited and the number of started cycles is unchanged:
no cycle ever starts after `Stop()` returns. -/
theorem stop_blocks_and_no_cycle_after (interval : Nat) (s t : SchedState)
    (hs : SchedReachable interval s) (hret : s.stopReturned = true)
    (hft : SchedReachFrom interval s t) :
    s.phase = .exited ∧ t.phase = .exited ∧
    t.cyclesStarted = s.cyclesStarted := by
  have hx : s.phase = .exited := ((schedInv_reachable hs).1 hret).1
  obtain ⟨htx, htc⟩ := sched_exited_frozen hft hx
  exact ⟨hx, htx, htc⟩

/-- C5 (witness): a run that starts, completes the initial cycle, is
stopped and joined; a further time step keeps the goroutine exited with
the cycle count frozen. -/
theorem stop_blocks_and_no_cycle_after_witness :
    (⟨.exited, true, true, false, 0, 1, 0, some 0⟩ : SchedState).phase =
      .exited ∧
    (⟨.exited, true, true, false, 0, 1, 1, some 0⟩ : SchedState).phase =
      .exited ∧
    (⟨.exited, true, true, false, 0, 1, 1, some 0⟩ : SchedState).cyclesStarted =
      (⟨.exited, true, true, false, 0, 1, 0, some 0⟩ : SchedState).cyclesStarted :=
  stop_blocks_and_no_cycle_after 7
    ⟨.exited, true, true, false, 0, 1, 0, some 0⟩
    ⟨.exited, true, true, false, 0, 1, 1, some 0⟩
    (SchedReachable.step
      (SchedReachable.step
        (SchedReachable.step
          (SchedReachable.step
            (SchedReachable.step SchedReachable.init
              (SchedStep.beginInit _ rfl))
            (SchedStep.finishInit _ rfl))
          (SchedStep.callStop _ rfl))
        (SchedStep.selectStop _ rfl rfl))
      (SchedStep.stopReturn _ rfl rfl))
    rfl
    (Relation.ReflTransGen.single (SchedStep.timePass _))

/-- C6: in every reachable state in which less than one full interval has
passed — whatever the interval — at most one refresh cycle has started,
and exactly one as soon as the loop has begun: the immediate initial
cycle is the only cycle before the first tick. -/
theorem initial_cycle_before_first_tick (interval : Nat) (s : SchedState)
    (hs : SchedReachable interval s) (hnow : s.now < interval) :
    s.cyclesStarted ≤ 1 ∧
    (s.phase = .beforeInit ∨ s.cyclesStarted = 1) := by
  obtain ⟨hA, hB, hH, hD, hF, hK, hL⟩ := schedInv_reachable hs
  have hticks : s.ticksElapsed = 0 := by
    by_contra h
    have := hH (Nat.one_le_iff_ne_zero.mpr h)
    omega
  refine ⟨hF hticks, ?_⟩
  by_cases hb : s.phase = .beforeInit
  · exact Or.inl hb
  · have h1 := hK hb
    have h2 := hF hticks
    exact Or.inr (by omega)

/-- C6 (witness): with interval 5, right after `Start()` launched the
immediate initial cycle at time 0, exactly one cycle has started. -/
theorem initial_cycle_before_first_tick_witness :
    (⟨.running0, false, false, false, 0, 1, 0, none⟩ : SchedState).cyclesStarted
      ≤ 1 ∧
    ((⟨.running0, false, false, false, 0, 1, 0, none⟩ : SchedState).phase =
        .beforeInit ∨
      (⟨.running0, false, false, false, 0, 1, 0, none⟩ :
        SchedState).cyclesStarted = 1) :=
  initial_cycle_before_first_tick 5
    ⟨.running0, false, false, false, 0, 1, 0, none⟩
    (SchedReachable.step SchedReachable.init (SchedStep.beginInit _ rfl))
    (by decide)

/-- C7: every cycle hands `RefreshAll` a context carrying the fixed
five-minute (300-second) deadline; a failing cycle is logged — the error
message appears in the cycle's log and the cycle still runs to
completion, returning nothing — and the loop itself exits only after
`Stop()` closed the stop channel, never because a cycle failed. -/
theorem cycle_deadline_logged_never_fatal (ra : Nat → Except String Unit)
    (e : String) (hra : ra refreshTimeoutSeconds = .error e)
    (interval : Nat) (s : SchedState) (hs : SchedReachable interval s)
    (hx : s.phase = .exited) :
    (refresh ra).ctxTimeoutSeconds = 5 * 60 ∧
    ("scheduled refresh error: " ++ e) ∈ (refresh ra).logs ∧
    (refresh ra).logs.getLast? = some "scheduled feed refresh completed" ∧
    s.stopClosed = true := by
  have hstop : s.stopClosed = true := (schedInv_reachable hs).2.2.2.2.2.2 hx
  refine ⟨rfl, ?_, ?_, hstop⟩
  · unfold refresh
    dsimp only
    rw [hra]
    simp
  · unfold refresh
    dsimp only
    rw [hra]
    rfl

/-- C7 (witness): a collaborator failing with `"boom"` is logged and the
cycle completes; the exited state of the joined run has the stop channel
closed. -/
theorem cycle_deadline_logged_never_fatal_witness :
    (refresh (fun _ => Except.error "boom")).ctxTimeoutSeconds = 5 * 60 ∧
    ("scheduled refresh error: " ++ "boom") ∈
      (refresh (fun _ => Except.error "boom")).logs ∧
    (refresh (fun _ => Except.error "boom")).logs.getLast? =
      some "scheduled feed refresh completed" ∧
    (⟨.exited, true, false, false, 0, 1, 0, some 0⟩ : SchedState).stopClosed =
      true :=
  cycle_deadline_logged_never_fatal (fun _ => Except.error "boom") "boom" rfl 7
    ⟨.exited, true, false, false, 0, 1, 0, some 0⟩
    (SchedReachable.step
      (SchedReachable.step
        (SchedReachable.step
          (SchedReachable.step SchedReachable.init
            (SchedStep.beginInit _ rfl))
          (SchedStep.finishInit _ rfl))
        (SchedStep.callStop _ rfl))
      (SchedStep.selectStop _ rfl rfl))
    rfl

/-- C9: sanitization keeps every structural tag of the configured policy
(with exactly the global id/class/lang/dir attribute allow-list) and
removes script elements with their content — dangerous attributes such as
event handlers are dropped — and on the spec's test input
`<article><script>evil()</script><p>Hello</p></article>` the output keeps
the `<article>` element and the paragraph text `Hello` and contains no
`<script>` element. -/
theorem sanitizer_keeps_structure_strips_scripts (t : String)
    (ht : t ∈ structuralTags) (attrs : List (String × String))
    (kids : HtmlForest) :
    sanitizeNode (.elem t attrs kids) =
      .cons (.elem t (sanitizeAttrs attrs) (sanitizeForest kids)) .nil ∧
    sanitizeNode (.elem "script" attrs kids) = .nil ∧
    sanitizeAttrs [("id", "x"), ("onclick", "evil()"), ("lang", "en")] =
      [("id", "x"), ("lang", "en")] ∧
    sanitizeForest sanitizerSampleInput = sanitizerSampleOutput ∧
    forestHasTag "script" (sanitizeForest sanitizerSampleInput) = false ∧
    forestHasTag "article" (sanitizeForest sanitizerSampleInput) = true ∧
    forestHasText "Hello" (sanitizeForest sanitizerSampleInput) = true := by
  fin_cases ht <;>
    exact ⟨rfl, rfl, rfl, rfl, rfl, rfl, rfl⟩

/-- C9 (witness): the preservation and stripping facts instantiated at
the `article` tag with a dangerous `onclick` attribute. -/
theorem sanitizer_keeps_structure_strips_scripts_witness :
    sanitizeNode (.elem "article" [("id", "x"), ("onclick", "evil()")]
        (.cons (.text "Hello") .nil)) =
      .cons
        (.elem "article"
          (sanitizeAttrs [("id", "x"), ("onclick", "evil()")])
          (sanitizeForest (.cons (.text "Hello") .nil)))
        .nil ∧
    sanitizeNode (.elem "script" [("id", "x"), ("onclick", "evil()")]
        (.cons (.text "Hello") .nil)) = .nil ∧
    sanitizeAttrs [("id", "x"), ("onclick", "evil()"), ("lang", "en")] =
      [("id", "x"), ("lang", "en")] ∧
    sanitizeForest sanitizerSampleInput = sanitizerSampleOutput ∧
    forestHasTag "script" (sanitizeForest sanitizerSampleInput) = false ∧
    forestHasTag "article" (sanitizeForest sanitizerSampleInput) = true ∧
    forestHasText "Hello" (sanitizeForest sanitizerSampleInput) = true :=
  sanitizer_keeps_structure_strips_scripts "article" (by simp [structuralTags])
    [("id", "x"), ("onclick", "evil()")] (.cons (.text "Hello") .nil)

end Gist
